import Mathlib

/-!
Verification development for the vocab-gen Obsidian plugin (`src/main.ts`).

Strings are embedded as `List Char` (`Str`).  Each definition mirrors one
JavaScript/TypeScript operation or function of the source; the collaborator
boundary (editor, vault, Gemini provider) is made explicit as parameters and
an event trace records the observable collaborator calls in execution order.
-/

set_option maxRecDepth 10000

namespace VocabGen

abbrev Str := List Char

/-- JS `s.startsWith(pre)` on char lists. -/
def startsWithL : Str → Str → Bool
  | _, [] => true
  | [], _ :: _ => false
  | c :: cs, p :: ps => c == p && startsWithL cs ps

/-- JS `s.includes(pat)` (substring containment) on char lists. -/
def containsL : Str → Str → Bool
  | [], pat => startsWithL [] pat
  | c :: cs, pat => startsWithL (c :: cs) pat || containsL cs pat

/-- JS `s.trim()`: strip leading and trailing whitespace. -/
def trimL (s : Str) : Str :=
  ((s.dropWhile Char.isWhitespace).reverse.dropWhile Char.isWhitespace).reverse

/-- JS `s.toLowerCase()` on char lists. -/
def lowerL (s : Str) : Str := s.map Char.toLower

/-- JS `s.split('\n')[0]`: everything before the first newline. -/
def firstLine (s : Str) : Str := s.takeWhile (fun c => !(c == '\n'))

/-- The literal two-character placeholder marker used in templates. -/
def placeholderTok : Str := ['{', '}']

/-- The backquote character, special in JS replacement strings. -/
def backquoteChar : Char := Char.ofNat 96

/-- The single-quote character, special in JS replacement strings. -/
def quoteChar : Char := Char.ofNat 39

/-- ECMA-262 GetSubstitution applied to the replacement string of
`String.prototype.replace` for the placeholder pattern, whose matched text
is always the two-character placeholder token: a dollar sign followed by a
second dollar sign inserts one dollar sign, followed by an ampersand inserts
the matched placeholder token, followed by a backquote inserts `before`
(the part of the subject string preceding the match), followed by a single
quote inserts `after` (the part following the match); any other use of the
dollar sign is literal, scanning resuming at the following character (the
placeholder pattern has no capture groups, so digit and angle forms are
literal too). -/
def dollarSubst (before after : Str) : Str → Str
  | [] => []
  | [c] => [c]
  | c :: c2 :: rest =>
    if c = '$' then
      if c2 = '$' then '$' :: dollarSubst before after rest
      else if c2 = '&' then '{' :: '}' :: dollarSubst before after rest
      else if c2 = backquoteChar then before ++ dollarSubst before after rest
      else if c2 = quoteChar then after ++ dollarSubst before after rest
      else c :: dollarSubst before after (c2 :: rest)
    else c :: dollarSubst before after (c2 :: rest)

/-- Recursion for the global placeholder replacement: `pre` is the reversed
prefix of the subject string already scanned, so that each match can supply
the ECMA-262 `before`/`after` contexts (taken from the original string). -/
def replacePlaceholderAux (word : Str) : Str → Str → Str
  | _, [] => []
  | _, [c] => [c]
  | pre, c :: c2 :: cs =>
    if c = '{' ∧ c2 = '}' then
      dollarSubst pre.reverse cs word ++ replacePlaceholderAux word (c2 :: c :: pre) cs
    else c :: replacePlaceholderAux word (c :: pre) (c2 :: cs)

/-- JS `s.replace(/\x7b\x7d/g, word)`: replace every occurrence of the
placeholder token by `word` after `$`-substitution; the inserted text is not
rescanned. -/
def replacePlaceholder (word pattern : Str) : Str :=
  replacePlaceholderAux word [] pattern

/-- Recursion for the first-occurrence replacement, with the same reversed
scanned prefix. -/
def replaceFirstPlaceholderAux (word : Str) : Str → Str → Str
  | _, [] => []
  | _, [c] => [c]
  | pre, c :: c2 :: cs =>
    if c = '{' ∧ c2 = '}' then dollarSubst pre.reverse cs word ++ cs
    else c :: replaceFirstPlaceholderAux word (c :: pre) (c2 :: cs)

/-- JS `s.replace('\x7b\x7d', word)` with a plain string argument: replace
only the first occurrence of the placeholder token, with `$`-substitution. -/
def replaceFirstPlaceholder (word pattern : Str) : Str :=
  replaceFirstPlaceholderAux word [] pattern

/-- Character class `[^\]|]` of the wikilink regex. -/
def linkCharOk (c : Char) : Bool := !(c == ']' || c == '|')

/-- Matching of the regex tail `(?:\|[^\]]+)?\]\]` against a prefix of the
input.  If the input starts with `|` only the optional-group branch can apply
(its inner `[^\]]+` is forced to stop at the first `]`); otherwise the
optional group is skipped and a literal `]]` is required. -/
def tailOk : Str → Bool
  | '|' :: ds =>
      !(ds.takeWhile (fun c => !(c == ']'))).isEmpty &&
      (match ds.dropWhile (fun c => !(c == ']')) with
       | ']' :: ']' :: _ => true
       | _ => false)
  | ']' :: ']' :: _ => true
  | _ => false

/-- One anchored attempt of the regex `\[\[([^\]|]+)(?:\|[^\]]+)?\]\]` at the
start of the input, returning capture group 1 on success.  The greedy
`[^\]|]+` admits no shorter backtrack: after any proper prefix of the maximal
run the next character is again in `[^\]|]`, while the tail demands `|` or
`]`, so only the maximal run can succeed. -/
def wikilinkMatchAt : Str → Option Str
  | '[' :: '[' :: ds =>
      let run := ds.takeWhile linkCharOk
      if !run.isEmpty && tailOk (ds.dropWhile linkCharOk) then some run else none
  | _ => none

/-- JS `s.match(re)` for the wikilink regex: leftmost match, advancing one
character at a time, returning capture group 1. -/
def wikilinkFirst : Str → Option Str
  | [] => none
  | c :: cs =>
    match wikilinkMatchAt (c :: cs) with
    | some g => some g
    | none => wikilinkFirst cs

/-- `extractFileName` of `src/main.ts` (lines 86-98): expand the placeholder,
then take the wikilink's inner identifier if the expanded pattern matches the
wikilink regex, else the whole expanded pattern, with `.md` appended. -/
def extractFileName (pattern word : Str) : Str :=
  let fullPattern := replacePlaceholder word pattern
  match wikilinkFirst fullPattern with
  | some g => g ++ ".md".toList
  | none => fullPattern ++ ".md".toList

/-- The default `noteNamePattern` of `DEFAULT_SETTINGS`. -/
def defaultNoteNamePattern : Str :=
  "[[vocab.".toList ++ placeholderTok ++ "|".toList ++ placeholderTok ++ "]]".toList

example : extractFileName defaultNoteNamePattern "apple".toList = "vocab.apple.md".toList := by decide
example : extractFileName defaultNoteNamePattern "a|b".toList = "vocab.a.md".toList := by decide
example : extractFileName "[[foo]]".toList "w".toList = "foo.md".toList := by decide
example : extractFileName "notes".toList "w".toList = "notes.md".toList := by decide
example : replacePlaceholder "apple".toList defaultNoteNamePattern = "[[vocab.apple|apple]]".toList := by decide

/-- The `VocabGenSettings` record of `src/main.ts`. -/
structure VocabGenSettings where
  apiKey : Str
  prompt : Str
  model : Str
  useCustomModel : Bool
  customModel : Str
  noteNamePattern : Str

/-- Outcome of one call to the external text-generation provider:
`ok t` models a response whose `text` field is `t` (`none` = absent),
`thrown msg` models the call throwing an error carrying message `msg`. -/
inductive ProviderResult where
  | ok (text : Option Str)
  | thrown (msg : Str)
  deriving DecidableEq

/-- The provider collaborator: a function of (model identifier, prompt). -/
abbrev Provider := Str → Str → ProviderResult

/-- Observable collaborator calls, recorded in execution order. -/
inductive Event where
  | replacedSelection (link : Str)
  | checkedExists (fileName : Str) (result : Bool)
  | calledProvider (model prompt : Str)
  | createdNote (fileName body : Str)
  | modifiedNote (fileName body : Str)
  | notice (msg : Str)
  deriving DecidableEq

/-- Placeholder returned when no API key is configured (line 137). -/
def noKeyPlaceholder (word : Str) : Str :=
  "**".toList ++ word ++
    "**\n\n*Please configure your Gemini API key in plugin settings to generate AI content.*".toList

/-- Placeholder returned when the caught error message mentions the API key
(line 169). -/
def invalidKeyPlaceholder (word : Str) : Str :=
  "**".toList ++ word ++
    "**\n\n*Invalid API key. Please check your Gemini API key in plugin settings.*".toList

/-- Placeholder returned for every other caught error (line 172). -/
def errorPlaceholder (word msg : Str) : Str :=
  "**".toList ++ word ++ "**\n\n*Error generating AI content: ".toList ++ msg ++ "*".toList

/-- Message of the error thrown on an empty provider response (line 159). -/
def noContentMsg : Str := "No content generated by AI".toList

/-- The credential-indicative substring tested by the catch block (line 168). -/
def apiKeyIndicator : Str := "API key".toList

/-- The catch block of `generateAIContent` (lines 164-173). -/
def catchAIError (word msg : Str) : Str :=
  if containsL msg apiKeyIndicator then invalidKeyPlaceholder word
  else errorPlaceholder word msg

/-- The effective prompt (lines 144-146): substitute the first placeholder
occurrence, or append the word when the template has no placeholder. -/
def promptTextFor (s : VocabGenSettings) (word : Str) : Str :=
  if containsL s.prompt placeholderTok then replaceFirstPlaceholder word s.prompt
  else s.prompt ++ word

/-- The active model identifier (line 149). -/
def modelToUse (s : VocabGenSettings) : Str :=
  if s.useCustomModel then s.customModel else s.model

/-- `generateAIContent` of `src/main.ts` (lines 134-174), returning the
produced text together with the provider-call events.  An empty or absent
response text throws `noContentMsg`, which is handled by the same catch
block as provider failures. -/
def generateAIContent (s : VocabGenSettings) (word : Str) (provider : Provider) :
    Str × List Event :=
  if s.apiKey = [] then (noKeyPlaceholder word, [])
  else
    let ev := [Event.calledProvider (modelToUse s) (promptTextFor s word)]
    match provider (modelToUse s) (promptTextFor s word) with
    | ProviderResult.ok none => (catchAIError word noContentMsg, ev)
    | ProviderResult.ok (some t) =>
        (if t = [] then catchAIError word noContentMsg else t, ev)
    | ProviderResult.thrown msg => (catchAIError word msg, ev)

/-- The host vault: the adapter-level existence check (`vault.adapter.exists`)
and the path-to-file lookup with contents (`vault.getFileByPath` composed with
`vault.read`, `none` when the lookup returns no file handle). -/
structure Vault where
  adapterExists : Str → Bool
  files : Str → Option Str

/-- `vault.create(name, content)`. -/
def Vault.create (v : Vault) (name content : Str) : Vault :=
  { adapterExists := fun f => if f = name then true else v.adapterExists f,
    files := fun f => if f = name then some content else v.files f }

/-- `vault.modify(file, newContent)` for the file at `name`. -/
def Vault.modify (v : Vault) (name content : Str) : Vault :=
  { v with files := fun f => if f = name then some content else v.files f }

/-- The header heuristic of `createOrUpdateVocabFile` (lines 111-113). -/
def hasHeader (aiContent word : Str) : Bool :=
  startsWithL (trimL aiContent) "#".toList ||
  startsWithL (trimL aiContent) "**".toList ||
  (containsL (lowerL aiContent) (lowerL word) &&
    decide ((firstLine (trimL aiContent)).length < 100))

/-- The spec's Header Reconciler `needsSyntheticHeader(content, word)`:
the negation of the code's `hasHeader` flag. -/
def needsSyntheticHeader (content word : Str) : Bool := !hasHeader content word

/-- The synthetic header prefix (line 116). -/
def headerChars (word : Str) : Str := "# ".toList ++ word ++ "\n\n".toList

/-- The append separator (line 125). -/
def sepChars : Str := "\n---\n\n".toList

def createdMsg (fileName : Str) : Str := "Created vocabulary file: ".toList ++ fileName
def updatedMsg (fileName : Str) : Str := "Updated vocabulary file: ".toList ++ fileName
def pleaseSelectMsg : Str := "Please select text first".toList

/-- The write step of `createOrUpdateVocabFile` (lines 109-128), the spec's
Note Writer, with the generated content as a parameter: create with an
optional synthetic header when the adapter says the file is absent; otherwise
look the file up by path and append past a separator, doing nothing when the
lookup returns no handle. -/
def writeVocabFile (word fileName aiContent : Str) (v : Vault) : Vault × List Event :=
  if v.adapterExists fileName then
    match v.files fileName with
    | some content =>
        let newBody := content ++ sepChars ++ aiContent ++ ['\n']
        (v.modify fileName newBody,
         [Event.modifiedNote fileName newBody, Event.notice (updatedMsg fileName)])
    | none => (v, [])
  else
    let finalContent := if hasHeader aiContent word then aiContent
                        else headerChars word ++ aiContent
    let body := finalContent ++ ['\n']
    (v.create fileName body,
     [Event.createdNote fileName body, Event.notice (createdMsg fileName)])

/-- `createOrUpdateVocabFile` of `src/main.ts` (lines 103-129): the adapter
existence check runs first (line 104), then the generation call (line 107),
then the write step. -/
def createOrUpdateVocabFile (s : VocabGenSettings) (word fileName : Str)
    (provider : Provider) (v : Vault) : Vault × List Event :=
  let fileExists := v.adapterExists fileName
  let gen := generateAIContent s word provider
  let w := writeVocabFile word fileName gen.1 v
  (w.1, Event.checkedExists fileName fileExists :: (gen.2 ++ w.2))

/-- `handleVocabGeneration` of `src/main.ts` (lines 58-81): trim the
selection, abort with a notice when empty, else replace the selection with
the expanded pattern, derive the file name and run the create/update step. -/
def handleVocabGeneration (s : VocabGenSettings) (selection : Str)
    (provider : Provider) (v : Vault) : Vault × List Event :=
  let selectedText := trimL selection
  if selectedText = [] then (v, [Event.notice pleaseSelectMsg])
  else
    let wikilink := replacePlaceholder selectedText s.noteNamePattern
    let fileName := extractFileName s.noteNamePattern selectedText
    let r := createOrUpdateVocabFile s selectedText fileName provider v
    (r.1, Event.replacedSelection wikilink :: r.2)

/-! ### Helper lemmas -/

theorem startsWithSelf (w b : Str) : startsWithL (w ++ b) w = true := by
  induction w with
  | nil => cases b <;> rfl
  | cons c cs ih => simp [startsWithL, ih]

theorem containsOfStartsWith (s pat : Str) (h : startsWithL s pat = true) :
    containsL s pat = true := by
  cases s with
  | nil => simpa [containsL] using h
  | cons c cs => simp [containsL, h]

theorem containsAppendMiddle (a w b : Str) : containsL (a ++ (w ++ b)) w = true := by
  induction a with
  | nil => exact containsOfStartsWith _ _ (startsWithSelf w b)
  | cons c cs ih => simp [containsL, ih]

theorem takeWhileAll {α : Type} (p : α → Bool) (l r : List α)
    (h : ∀ a ∈ l, p a = true) :
    List.takeWhile p (l ++ r) = l ++ List.takeWhile p r := by
  induction l with
  | nil => rfl
  | cons c cs ih =>
      simp only [List.cons_append, List.takeWhile_cons, h c (by simp)]
      simpa using ih (fun a ha => h a (by simp [ha]))

theorem dropWhileAll {α : Type} (p : α → Bool) (l r : List α)
    (h : ∀ a ∈ l, p a = true) :
    List.dropWhile p (l ++ r) = List.dropWhile p r := by
  induction l with
  | nil => rfl
  | cons c cs ih =>
      simp only [List.cons_append, List.dropWhile_cons, h c (by simp)]
      simpa using ih (fun a ha => h a (by simp [ha]))

theorem dollarNoOp (before after : Str) :
    ∀ w : Str, '$' ∉ w → dollarSubst before after w = w := by
  intro w
  induction w with
  | nil => intro _; rfl
  | cons c cs ih =>
    cases cs with
    | nil => intro _; rfl
    | cons c2 cs2 =>
      intro hd
      have hc : ¬(c = '$') := by
        intro h
        exact hd (h ▸ List.mem_cons_self c (c2 :: cs2))
      rw [dollarSubst, if_neg hc]
      have := ih (fun h => hd (List.mem_cons_of_mem c h))
      rw [this]

theorem rpDefault (w : Str) (hd : '$' ∉ w) :
    replacePlaceholder w defaultNoteNamePattern =
      "[[vocab.".toList ++ (w ++ ('|' :: (w ++ [']', ']']))) := by
  have hsub : ∀ b a : Str, dollarSubst b a w = w := fun b a => dollarNoOp b a w hd
  simp [replacePlaceholder, defaultNoteNamePattern, placeholderTok,
    replacePlaceholderAux, hsub]

theorem rpNoPlaceholderAux (w : Str) :
    ∀ s pre : Str, containsL s placeholderTok = false →
      replacePlaceholderAux w pre s = s := by
  intro s
  induction s with
  | nil => intro pre _; rfl
  | cons c cs ih =>
    cases cs with
    | nil => intro pre _; rfl
    | cons c2 cs2 =>
      intro pre h
      simp only [containsL, placeholderTok, Bool.or_eq_false_iff] at h
      obtain ⟨h1, h2, h3⟩ := h
      have hnot : ¬(c = '{' ∧ c2 = '}') := by
        rintro ⟨rfl, rfl⟩
        simp [startsWithL] at h1
      rw [replacePlaceholderAux, if_neg hnot]
      have hrec : containsL (c2 :: cs2) placeholderTok = false := by
        simp only [containsL, placeholderTok, Bool.or_eq_false_iff]
        exact ⟨h2, h3⟩
      rw [ih (c :: pre) hrec]

theorem rpNoPlaceholder (w : Str) :
    ∀ s : Str, containsL s placeholderTok = false → replacePlaceholder w s = s :=
  fun s h => rpNoPlaceholderAux w s [] h

theorem genEvents (s : VocabGenSettings) (word : Str) (provider : Provider)
    (h : s.apiKey ≠ []) :
    (generateAIContent s word provider).2 =
      [Event.calledProvider (modelToUse s) (promptTextFor s word)] := by
  unfold generateAIContent
  rw [if_neg h]
  cases provider (modelToUse s) (promptTextFor s word) with
  | ok t => cases t <;> rfl
  | thrown msg => rfl

theorem writeEventsShape (word fileName aiContent : Str) (v : Vault) :
    ∀ e ∈ (writeVocabFile word fileName aiContent v).2,
      (∃ f b, e = Event.createdNote f b) ∨ (∃ f b, e = Event.modifiedNote f b) ∨
      (∃ m, e = Event.notice m) := by
  intro e he
  unfold writeVocabFile at he
  by_cases hex : v.adapterExists fileName
  · rw [if_pos hex] at he
    cases hfile : v.files fileName with
    | none => rw [hfile] at he; simp at he
    | some content =>
        rw [hfile] at he
        simp only [List.mem_cons, List.mem_singleton] at he
        rcases he with rfl | rfl | h
        · exact Or.inr (Or.inl ⟨_, _, rfl⟩)
        · exact Or.inr (Or.inr ⟨_, rfl⟩)
        · simp at h
  · rw [if_neg hex] at he
    simp only [List.mem_cons, List.mem_singleton] at he
    rcases he with rfl | rfl | h
    · exact Or.inl ⟨_, _, rfl⟩
    · exact Or.inr (Or.inr ⟨_, rfl⟩)
    · simp at h

theorem extractDefault (w : Str) (hne : w ≠ []) (hp : '|' ∉ w) (hb : ']' ∉ w)
    (hd : '$' ∉ w) :
    extractFileName defaultNoteNamePattern w = "vocab.".toList ++ w ++ ".md".toList := by
  have hwLink : ∀ a ∈ w, linkCharOk a = true := by
    intro a ha
    simp only [linkCharOk, Bool.not_eq_true', Bool.or_eq_false_iff, beq_eq_false_iff_ne,
      ne_eq]
    exact ⟨fun h => hb (h ▸ ha), fun h => hp (h ▸ ha)⟩
  have hwBr : ∀ a ∈ w, (!(a == ']')) = true := by
    intro a ha
    simp only [Bool.not_eq_true', beq_eq_false_iff_ne, ne_eq]
    exact fun h => hb (h ▸ ha)
  have hEmp : w.isEmpty = false := by
    cases w with
    | nil => exact absurd rfl hne
    | cons _ _ => rfl
  have htake :
      List.takeWhile linkCharOk ("vocab.".toList ++ (w ++ ('|' :: (w ++ [']', ']'])))) =
        "vocab.".toList ++ w := by
    rw [takeWhileAll linkCharOk "vocab.".toList _ (by decide),
        takeWhileAll linkCharOk w _ hwLink]
    simp [List.takeWhile_cons, linkCharOk]
  have hdrop :
      List.dropWhile linkCharOk ("vocab.".toList ++ (w ++ ('|' :: (w ++ [']', ']'])))) =
        '|' :: (w ++ [']', ']']) := by
    rw [dropWhileAll linkCharOk "vocab.".toList _ (by decide),
        dropWhileAll linkCharOk w _ hwLink]
    simp [List.dropWhile_cons, linkCharOk]
  have htail : tailOk ('|' :: (w ++ [']', ']'])) = true := by
    have t1 : List.takeWhile (fun c => !(c == ']')) (w ++ [']', ']']) = w := by
      rw [takeWhileAll _ w _ hwBr]; simp [List.takeWhile_cons]
    have t2 : List.dropWhile (fun c => !(c == ']')) (w ++ [']', ']']) = [']', ']'] := by
      rw [dropWhileAll _ w _ hwBr]; simp [List.dropWhile_cons]
    simp only [tailOk, t1, t2, hEmp]
    rfl
  have hmatchAt :
      wikilinkMatchAt ('[' :: '[' :: ("vocab.".toList ++ (w ++ ('|' :: (w ++ [']', ']']))))) =
        some ("vocab.".toList ++ w) := by
    simp only [wikilinkMatchAt, htake, hdrop, htail]
    simp
  have hfirst :
      wikilinkFirst ('[' :: '[' :: ("vocab.".toList ++ (w ++ ('|' :: (w ++ [']', ']']))))) =
        some ("vocab.".toList ++ w) := by
    rw [wikilinkFirst, hmatchAt]
  have hrp : replacePlaceholder w defaultNoteNamePattern =
      '[' :: '[' :: ("vocab.".toList ++ (w ++ ('|' :: (w ++ [']', ']'])))) := rpDefault w hd
  simp only [extractFileName, hrp, hfirst]

/-! ### Claim theorems -/

/-- C2 (amended): for every non-empty word containing none of `|`, `]` and
`$`, resolving the default naming pattern yields a display link containing
the word twice and a storage identifier equal to `vocab.<word>.md`. -/
theorem c2_default_pattern (w : Str) (hne : w ≠ []) (hp : '|' ∉ w) (hb : ']' ∉ w)
    (hd : '$' ∉ w) :
    (∃ x y z, replacePlaceholder w defaultNoteNamePattern =
        x ++ (w ++ (y ++ (w ++ z)))) ∧
    extractFileName defaultNoteNamePattern w = "vocab.".toList ++ w ++ ".md".toList := by
  refine ⟨⟨"[[vocab.".toList, ['|'], [']', ']'], ?_⟩, extractDefault w hne hp hb hd⟩
  rw [rpDefault w hd]
  rfl

/-- C2 witness: the amended claim evaluated at the word `apple`. -/
theorem c2_default_pattern_witness :
    (∃ x y z, replacePlaceholder "apple".toList defaultNoteNamePattern =
        x ++ ("apple".toList ++ (y ++ ("apple".toList ++ z)))) ∧
    extractFileName defaultNoteNamePattern "apple".toList =
      "vocab.".toList ++ "apple".toList ++ ".md".toList :=
  c2_default_pattern "apple".toList (by decide) (by decide) (by decide) (by decide)

/-- C2 counterexample: for the non-empty word `a|b` the derived storage
identifier is `vocab.a.md`, not `vocab.a|b.md`; and for the non-empty word
made of two dollar signs, JS `$`-substitution collapses it to one dollar
sign, so the display link does not contain the word at all and the
identifier is `vocab.$.md` rather than `vocab.$$.md`. -/
theorem c2_pipe_counterexample :
    "a|b".toList ≠ [] ∧
    extractFileName defaultNoteNamePattern "a|b".toList = "vocab.a.md".toList ∧
    extractFileName defaultNoteNamePattern "a|b".toList ≠
      "vocab.".toList ++ "a|b".toList ++ ".md".toList ∧
    "$$".toList ≠ [] ∧
    replacePlaceholder "$$".toList defaultNoteNamePattern = "[[vocab.$|$]]".toList ∧
    extractFileName defaultNoteNamePattern "$$".toList = "vocab.$.md".toList ∧
    extractFileName defaultNoteNamePattern "$$".toList ≠
      "vocab.".toList ++ "$$".toList ++ ".md".toList ∧
    containsL (replacePlaceholder "$$".toList defaultNoteNamePattern) "$$".toList =
      false := by decide

/-- C5 (amended): for every placeholder-free pattern the storage identifier
is independent of the word, and it equals the pattern with `.md` appended
whenever the pattern itself does not match the wikilink grammar. -/
theorem c5_no_placeholder (pattern w w2 : Str)
    (h : containsL pattern placeholderTok = false) :
    extractFileName pattern w = extractFileName pattern w2 ∧
    (wikilinkFirst pattern = none →
      extractFileName pattern w = pattern ++ ".md".toList) := by
  have h1 := rpNoPlaceholder w pattern h
  have h2 := rpNoPlaceholder w2 pattern h
  constructor
  · simp only [extractFileName, h1, h2]
  · intro hn
    simp only [extractFileName, h1, hn]

/-- C5 witness: the amended claim evaluated at the placeholder-free pattern
`notes` and the words `a` and `b`. -/
theorem c5_no_placeholder_witness :
    extractFileName "notes".toList "a".toList = extractFileName "notes".toList "b".toList ∧
    extractFileName "notes".toList "a".toList = "notes".toList ++ ".md".toList := by
  have h := c5_no_placeholder "notes".toList "a".toList "b".toList (by decide)
  exact ⟨h.1, h.2 (by decide)⟩

/-- C5 counterexample: the pattern `[[foo]]` contains no placeholder token,
yet the derived identifier is `foo.md`, not `[[foo]].md` as the claim
states. -/
theorem c5_wikilink_counterexample :
    containsL "[[foo]]".toList placeholderTok = false ∧
    extractFileName "[[foo]]".toList "w".toList = "foo.md".toList ∧
    extractFileName "[[foo]]".toList "w".toList ≠ "[[foo]]".toList ++ ".md".toList := by
  decide

/-- C4 (amended): `needsSyntheticHeader(content, word)` returns false exactly
when the trimmed content starts with `#`, or the trimmed content starts with
`**`, or the content case-insensitively contains the word and the first line
of the TRIMMED content is shorter than 100 characters. -/
theorem c4_header_characterization (content word : Str) :
    needsSyntheticHeader content word = false ↔
      (startsWithL (trimL content) "#".toList = true ∨
       startsWithL (trimL content) "**".toList = true ∨
       (containsL (lowerL content) (lowerL word) = true ∧
        (firstLine (trimL content)).length < 100)) := by
  unfold needsSyntheticHeader hasHeader
  cases h1 : startsWithL (trimL content) "#".toList <;>
  cases h2 : startsWithL (trimL content) "**".toList <;>
  cases h3 : containsL (lowerL content) (lowerL word) <;>
    simp [h1, h2, h3]

/-- C4 counterexample: content whose raw first line is 101 characters long
but whose trimmed first line is short.  The code returns false although the
claim's condition (which measures the first line of the raw content) does
not hold, so the claimed "exactly when" fails. -/
theorem c4_rawline_counterexample :
    needsSyntheticHeader (List.replicate 100 ' ' ++ "w\nrest".toList) "w".toList = false ∧
    ¬(startsWithL (trimL (List.replicate 100 ' ' ++ "w\nrest".toList)) "#".toList = true ∨
      startsWithL (trimL (List.replicate 100 ' ' ++ "w\nrest".toList)) "**".toList = true ∨
      (containsL (lowerL (List.replicate 100 ' ' ++ "w\nrest".toList))
          (lowerL "w".toList) = true ∧
       (firstLine (List.replicate 100 ' ' ++ "w\nrest".toList)).length < 100)) := by
  decide

/-- C6 (amended): `needsSyntheticHeader` returns false for every word and
every content whose trimmed form starts with `#` or starts with `**` (a
single leading `*` is not sufficient). -/
theorem c6_marker_header (content word : Str)
    (h : startsWithL (trimL content) "#".toList = true ∨
         startsWithL (trimL content) "**".toList = true) :
    needsSyntheticHeader content word = false := by
  cases hh : hasHeader content word with
  | true => simp [needsSyntheticHeader, hh]
  | false =>
      exfalso
      simp only [hasHeader, Bool.or_eq_false_iff] at hh
      rcases h with h | h
      · rw [h] at hh
        simp at hh
      · rw [h] at hh
        simp at hh

/-- C6 witness: the amended claim evaluated at content `# x` and word `z`. -/
theorem c6_marker_header_witness :
    needsSyntheticHeader "# x".toList "z".toList = false :=
  c6_marker_header "# x".toList "z".toList (Or.inl (by decide))

/-- C6 counterexample: the content `*a` has `*` as its first character after
trimming, yet for the word `z` `needsSyntheticHeader` returns true, because
the code tests for the two-character marker `**`. -/
theorem c6_star_counterexample :
    (trimL "*a".toList).head? = some '*' ∧
    needsSyntheticHeader "*a".toList "z".toList = true := by decide

theorem containsNoKey (word : Str) : containsL (noKeyPlaceholder word) word = true := by
  have h := containsAppendMiddle "**".toList word
    "**\n\n*Please configure your Gemini API key in plugin settings to generate AI content.*".toList
  simpa [noKeyPlaceholder, List.append_assoc] using h

theorem containsInvalidKey (word : Str) :
    containsL (invalidKeyPlaceholder word) word = true := by
  have h := containsAppendMiddle "**".toList word
    "**\n\n*Invalid API key. Please check your Gemini API key in plugin settings.*".toList
  simpa [invalidKeyPlaceholder, List.append_assoc] using h

theorem containsErrorPh (word msg : Str) :
    containsL (errorPlaceholder word msg) word = true := by
  have h := containsAppendMiddle "**".toList word
    ("**\n\n*Error generating AI content: ".toList ++ msg ++ "*".toList)
  simpa [errorPlaceholder, List.append_assoc] using h

theorem containsCatch (word msg : Str) :
    containsL (catchAIError word msg) word = true := by
  unfold catchAIError
  by_cases hc : containsL msg apiKeyIndicator = true
  · rw [if_pos hc]; exact containsInvalidKey word
  · rw [if_neg hc]; exact containsErrorPh word msg

/-- C1: the Note Writer on a non-existing identifier creates the note with
the (possibly header-prefixed) content plus one trailing newline and reports
creation; on an existing identifier with prior body `prior` it overwrites
with `prior ++ "\n---\n\n" ++ content ++ "\n"` and reports the append. -/
theorem c1_note_writer (word fileName content prior : Str) (v : Vault) :
    (v.adapterExists fileName = false →
       writeVocabFile word fileName content v =
         (v.create fileName
            ((if hasHeader content word then content else headerChars word ++ content) ++ ['\n']),
          [Event.createdNote fileName
             ((if hasHeader content word then content else headerChars word ++ content) ++ ['\n']),
           Event.notice (createdMsg fileName)]) ∧
       (writeVocabFile word fileName content v).1.files fileName =
         some ((if hasHeader content word then content else headerChars word ++ content) ++ ['\n'])) ∧
    (v.adapterExists fileName = true → v.files fileName = some prior →
       writeVocabFile word fileName content v =
         (v.modify fileName (prior ++ sepChars ++ content ++ ['\n']),
          [Event.modifiedNote fileName (prior ++ sepChars ++ content ++ ['\n']),
           Event.notice (updatedMsg fileName)]) ∧
       (writeVocabFile word fileName content v).1.files fileName =
         some (prior ++ sepChars ++ content ++ ['\n'])) := by
  constructor
  · intro hex
    have hw : writeVocabFile word fileName content v =
        (v.create fileName
           ((if hasHeader content word then content else headerChars word ++ content) ++ ['\n']),
         [Event.createdNote fileName
            ((if hasHeader content word then content else headerChars word ++ content) ++ ['\n']),
          Event.notice (createdMsg fileName)]) := by
      unfold writeVocabFile
      rw [if_neg (by simp [hex])]
    exact ⟨hw, by rw [hw]; simp [Vault.create]⟩
  · intro hex hfile
    have hw : writeVocabFile word fileName content v =
        (v.modify fileName (prior ++ sepChars ++ content ++ ['\n']),
         [Event.modifiedNote fileName (prior ++ sepChars ++ content ++ ['\n']),
          Event.notice (updatedMsg fileName)]) := by
      unfold writeVocabFile
      rw [if_pos hex, hfile]
    exact ⟨hw, by rw [hw]; simp [Vault.modify]⟩

/-- C1 witness: both branches at concrete inputs — creating `f` in an empty
vault (content `text` has no header, so the synthetic header is added) and
appending to `f` with prior body `Old`. -/
theorem c1_note_writer_witness :
    (writeVocabFile "w".toList "f".toList "text".toList
        ⟨fun _ => false, fun _ => none⟩).1.files "f".toList =
      some "# w\n\ntext\n".toList ∧
    (writeVocabFile "w".toList "f".toList "text".toList
        ⟨fun _ => true, fun _ => some "Old".toList⟩).1.files "f".toList =
      some "Old\n---\n\ntext\n".toList := by
  have h1 := (c1_note_writer "w".toList "f".toList "text".toList []
    ⟨fun _ => false, fun _ => none⟩).1 rfl
  have h2 := (c1_note_writer "w".toList "f".toList "text".toList "Old".toList
    ⟨fun _ => true, fun _ => some "Old".toList⟩).2 rfl rfl
  constructor
  · rw [h1.2]; decide
  · rw [h2.2]; decide

/-- C7: with an empty API key the generator returns the configuration
placeholder (which contains the word), emits no provider-call event, and its
result does not depend on the provider collaborator. -/
theorem c7_no_key (s : VocabGenSettings) (word : Str) (provider provider2 : Provider)
    (h : s.apiKey = []) :
    generateAIContent s word provider = (noKeyPlaceholder word, []) ∧
    containsL (generateAIContent s word provider).1 word = true ∧
    generateAIContent s word provider = generateAIContent s word provider2 := by
  have hg : ∀ p : Provider, generateAIContent s word p = (noKeyPlaceholder word, []) := by
    intro p; unfold generateAIContent; rw [if_pos h]
  refine ⟨hg provider, ?_, by rw [hg provider, hg provider2]⟩
  rw [hg provider]
  exact containsNoKey word

/-- C7 witness: the claim at word `w` with an empty key and two providers
that would behave differently if invoked. -/
theorem c7_no_key_witness :
    generateAIContent ⟨[], "p".toList, "m".toList, false, "c".toList, []⟩ "w".toList
        (fun _ _ => ProviderResult.ok (some "a".toList)) =
      (noKeyPlaceholder "w".toList, []) ∧
    containsL (generateAIContent ⟨[], "p".toList, "m".toList, false, "c".toList, []⟩
        "w".toList (fun _ _ => ProviderResult.ok (some "a".toList))).1 "w".toList = true ∧
    generateAIContent ⟨[], "p".toList, "m".toList, false, "c".toList, []⟩ "w".toList
        (fun _ _ => ProviderResult.ok (some "a".toList)) =
      generateAIContent ⟨[], "p".toList, "m".toList, false, "c".toList, []⟩ "w".toList
        (fun _ _ => ProviderResult.thrown "boom".toList) :=
  c7_no_key _ "w".toList _ _ rfl

/-- C8: when the trimmed selection is empty the command shows the transient
notice and nothing else: the vault is returned unchanged and the notice is
the only event (no selection replacement, no provider call, no write). -/
theorem c8_empty_selection (s : VocabGenSettings) (selection : Str)
    (provider : Provider) (v : Vault) (h : trimL selection = []) :
    handleVocabGeneration s selection provider v = (v, [Event.notice pleaseSelectMsg]) := by
  unfold handleVocabGeneration
  simp [h]

/-- C8 witness: a whitespace-only selection against a concrete vault. -/
theorem c8_empty_selection_witness :
    handleVocabGeneration ⟨"k".toList, "p".toList, "m".toList, false, "c".toList, []⟩
        "  ".toList (fun _ _ => ProviderResult.ok (some "a".toList))
        ⟨fun _ => false, fun _ => none⟩ =
      (⟨fun _ => false, fun _ => none⟩, [Event.notice pleaseSelectMsg]) :=
  c8_empty_selection _ "  ".toList _ _ (by decide)

/-- C10: when the adapter existence check says the note exists but the
path lookup returns no file handle, the vault is unchanged and the only
events are the existence check and (possibly) the provider call — no note
is created or modified and no notice is shown. -/
theorem c10_phantom_file (s : VocabGenSettings) (word fileName : Str)
    (provider : Provider) (v : Vault)
    (h1 : v.adapterExists fileName = true) (h2 : v.files fileName = none) :
    (createOrUpdateVocabFile s word fileName provider v).1 = v ∧
    (createOrUpdateVocabFile s word fileName provider v).2 =
      Event.checkedExists fileName true :: (generateAIContent s word provider).2 ∧
    (∀ e ∈ (generateAIContent s word provider).2, ∃ m p, e = Event.calledProvider m p) := by
  have hw : writeVocabFile word fileName (generateAIContent s word provider).1 v = (v, []) := by
    unfold writeVocabFile
    rw [if_pos h1, h2]
  refine ⟨?_, ?_, ?_⟩
  · simp [createOrUpdateVocabFile, hw]
  · simp [createOrUpdateVocabFile, hw, h1]
  · intro e he
    by_cases hk : s.apiKey = []
    · unfold generateAIContent at he
      rw [if_pos hk] at he
      simp at he
    · rw [genEvents s word provider hk] at he
      simp only [List.mem_singleton] at he
      exact ⟨_, _, he⟩

/-- C10 witness: a vault whose adapter reports `f` as existing while the
file lookup returns no handle; the invocation leaves the vault unchanged. -/
theorem c10_phantom_file_witness :
    (createOrUpdateVocabFile ⟨"k".toList, "p".toList, "m".toList, false, "c".toList, []⟩
        "w".toList "f".toList (fun _ _ => ProviderResult.ok (some "t".toList))
        ⟨fun _ => true, fun _ => none⟩).1 = ⟨fun _ => true, fun _ => none⟩ ∧
    (createOrUpdateVocabFile ⟨"k".toList, "p".toList, "m".toList, false, "c".toList, []⟩
        "w".toList "f".toList (fun _ _ => ProviderResult.ok (some "t".toList))
        ⟨fun _ => true, fun _ => none⟩).2 =
      Event.checkedExists "f".toList true ::
        (generateAIContent ⟨"k".toList, "p".toList, "m".toList, false, "c".toList, []⟩
          "w".toList (fun _ _ => ProviderResult.ok (some "t".toList))).2 ∧
    (∀ e ∈ (generateAIContent ⟨"k".toList, "p".toList, "m".toList, false, "c".toList, []⟩
        "w".toList (fun _ _ => ProviderResult.ok (some "t".toList))).2,
      ∃ m p, e = Event.calledProvider m p) :=
  c10_phantom_file _ "w".toList "f".toList _ _ rfl rfl

/-- C3: the generator always returns a string (it is a total function into
`Str`, no error propagates); with no key it returns the configuration
placeholder; every provider failure is absorbed — a thrown message
mentioning `API key` yields the invalid-key placeholder, any other thrown
message yields the generic placeholder embedding that message, an empty or
absent response yields the generic placeholder for `noContentMsg` — and
every placeholder contains the word; a non-empty response is returned
verbatim. -/
theorem c3_generator_total (s : VocabGenSettings) (word : Str) (provider : Provider) :
    (s.apiKey = [] →
       (generateAIContent s word provider).1 = noKeyPlaceholder word ∧
       containsL (generateAIContent s word provider).1 word = true) ∧
    (s.apiKey ≠ [] →
       (∀ msg, provider (modelToUse s) (promptTextFor s word) = ProviderResult.thrown msg →
          (containsL msg apiKeyIndicator = true →
             (generateAIContent s word provider).1 = invalidKeyPlaceholder word) ∧
          (containsL msg apiKeyIndicator = false →
             (generateAIContent s word provider).1 = errorPlaceholder word msg) ∧
          containsL (generateAIContent s word provider).1 word = true) ∧
       ((provider (modelToUse s) (promptTextFor s word) = ProviderResult.ok none ∨
         provider (modelToUse s) (promptTextFor s word) = ProviderResult.ok (some [])) →
          (generateAIContent s word provider).1 = errorPlaceholder word noContentMsg ∧
          containsL (generateAIContent s word provider).1 word = true) ∧
       (∀ t, provider (modelToUse s) (promptTextFor s word) = ProviderResult.ok (some t) →
          t ≠ [] → (generateAIContent s word provider).1 = t)) := by
  constructor
  · intro hk
    have hg : generateAIContent s word provider = (noKeyPlaceholder word, []) := by
      unfold generateAIContent; rw [if_pos hk]
    rw [hg]
    exact ⟨rfl, containsNoKey word⟩
  · intro hk
    refine ⟨?_, ?_, ?_⟩
    · intro msg hmsg
      have hg : (generateAIContent s word provider).1 = catchAIError word msg := by
        unfold generateAIContent
        rw [if_neg hk, hmsg]
      refine ⟨fun hc => ?_, fun hc => ?_, ?_⟩
      · rw [hg]; unfold catchAIError; rw [if_pos hc]
      · rw [hg]; unfold catchAIError; rw [if_neg (by simp [hc])]
      · rw [hg]; exact containsCatch word msg
    · intro hor
      have hg : (generateAIContent s word provider).1 = catchAIError word noContentMsg := by
        unfold generateAIContent
        rw [if_neg hk]
        rcases hor with h | h
        · rw [h]
        · rw [h]; simp
      have hcatch : catchAIError word noContentMsg = errorPlaceholder word noContentMsg := by
        unfold catchAIError
        rw [if_neg (by decide)]
      rw [hg]
      exact ⟨hcatch, containsCatch word noContentMsg⟩
    · intro t ht hne
      unfold generateAIContent
      rw [if_neg hk, ht]
      simp [hne]

/-- C3 witness: each absorbed-failure branch at concrete inputs — empty key,
credential-related throw, generic throw, absent response text, and a
successful non-empty response. -/
theorem c3_generator_total_witness :
    (generateAIContent ⟨[], "p".toList, "m".toList, false, "c".toList, []⟩ "w".toList
        (fun _ _ => ProviderResult.ok (some "t".toList))).1 = noKeyPlaceholder "w".toList ∧
    (generateAIContent ⟨"k".toList, "p".toList, "m".toList, false, "c".toList, []⟩ "w".toList
        (fun _ _ => ProviderResult.thrown "bad API key".toList)).1 =
      invalidKeyPlaceholder "w".toList ∧
    (generateAIContent ⟨"k".toList, "p".toList, "m".toList, false, "c".toList, []⟩ "w".toList
        (fun _ _ => ProviderResult.thrown "timeout".toList)).1 =
      errorPlaceholder "w".toList "timeout".toList ∧
    (generateAIContent ⟨"k".toList, "p".toList, "m".toList, false, "c".toList, []⟩ "w".toList
        (fun _ _ => ProviderResult.ok none)).1 =
      errorPlaceholder "w".toList noContentMsg ∧
    (generateAIContent ⟨"k".toList, "p".toList, "m".toList, false, "c".toList, []⟩ "w".toList
        (fun _ _ => ProviderResult.ok (some "t".toList))).1 = "t".toList := by
  have h1 := c3_generator_total ⟨[], "p".toList, "m".toList, false, "c".toList, []⟩
    "w".toList (fun _ _ => ProviderResult.ok (some "t".toList))
  have h2 := c3_generator_total ⟨"k".toList, "p".toList, "m".toList, false, "c".toList, []⟩
    "w".toList (fun _ _ => ProviderResult.thrown "bad API key".toList)
  have h3 := c3_generator_total ⟨"k".toList, "p".toList, "m".toList, false, "c".toList, []⟩
    "w".toList (fun _ _ => ProviderResult.thrown "timeout".toList)
  have h4 := c3_generator_total ⟨"k".toList, "p".toList, "m".toList, false, "c".toList, []⟩
    "w".toList (fun _ _ => ProviderResult.ok none)
  have h5 := c3_generator_total ⟨"k".toList, "p".toList, "m".toList, false, "c".toList, []⟩
    "w".toList (fun _ _ => ProviderResult.ok (some "t".toList))
  refine ⟨(h1.1 rfl).1, ?_, ?_, ?_, ?_⟩
  · obtain ⟨ha, _, _⟩ := (h2.2 (by decide)).1 "bad API key".toList rfl
    exact ha (by decide)
  · obtain ⟨_, hb, _⟩ := (h3.2 (by decide)).1 "timeout".toList rfl
    exact hb (by decide)
  · exact ((h4.2 (by decide)).2.1 (Or.inl rfl)).1
  · exact (h5.2 (by decide)).2.2 "t".toList rfl (by decide)

/-- Concrete configuration for the C9 invocation: non-empty API key, prompt
without a placeholder and the default naming pattern. -/
def c9s : VocabGenSettings :=
  ⟨"k".toList, "define ".toList, "m".toList, false, "c".toList, defaultNoteNamePattern⟩

/-- Concrete provider for the C9 invocation. -/
def c9p : Provider := fun _ _ => ProviderResult.ok (some "text".toList)

/-- Concrete empty vault for the C9 invocation. -/
def c9v : Vault := ⟨fun _ => false, fun _ => none⟩

/-- C9 (amended): in every invocation with a non-empty trimmed selection and
a configured key, the trace is: selection replacement first, then the
note-existence check, then the provider call, and after it only write and
notice events — so the visible link replacement and the existence check both
precede the network call, and the note write follows it. -/
theorem c9_ordering (s : VocabGenSettings) (selection : Str) (provider : Provider)
    (v : Vault) (h : trimL selection ≠ []) (hk : s.apiKey ≠ []) :
    ∃ wevs,
      (handleVocabGeneration s selection provider v).2 =
        Event.replacedSelection (replacePlaceholder (trimL selection) s.noteNamePattern) ::
        Event.checkedExists (extractFileName s.noteNamePattern (trimL selection))
          (v.adapterExists (extractFileName s.noteNamePattern (trimL selection))) ::
        Event.calledProvider (modelToUse s) (promptTextFor s (trimL selection)) :: wevs ∧
      ∀ e ∈ wevs, (∃ f b, e = Event.createdNote f b) ∨
        (∃ f b, e = Event.modifiedNote f b) ∨ (∃ m, e = Event.notice m) := by
  refine ⟨(writeVocabFile (trimL selection)
      (extractFileName s.noteNamePattern (trimL selection))
      (generateAIContent s (trimL selection) provider).1 v).2, ?_, ?_⟩
  · unfold handleVocabGeneration
    rw [if_neg h]
    simp [createOrUpdateVocabFile, genEvents s (trimL selection) provider hk]
  · exact writeEventsShape _ _ _ v

/-- C9 witness: the amended ordering at a concrete invocation. -/
theorem c9_ordering_witness :
    ∃ wevs,
      (handleVocabGeneration c9s "w".toList c9p c9v).2 =
        Event.replacedSelection (replacePlaceholder (trimL "w".toList) c9s.noteNamePattern) ::
        Event.checkedExists (extractFileName c9s.noteNamePattern (trimL "w".toList))
          (c9v.adapterExists (extractFileName c9s.noteNamePattern (trimL "w".toList))) ::
        Event.calledProvider (modelToUse c9s) (promptTextFor c9s (trimL "w".toList)) :: wevs ∧
      ∀ e ∈ wevs, (∃ f b, e = Event.createdNote f b) ∨
        (∃ f b, e = Event.modifiedNote f b) ∨ (∃ m, e = Event.notice m) :=
  c9_ordering c9s "w".toList c9p c9v (by decide) (by decide)

/-- C9 counterexample: in a concrete invocation the trace has the existence
check at position 1 and the (unique) provider call at position 2, so the
note-existence check runs BEFORE the generation call completes, contradicting
the claimed order. -/
theorem c9_check_before_call :
    (handleVocabGeneration c9s "w".toList c9p c9v).2[1]? =
      some (Event.checkedExists "vocab.w.md".toList false) ∧
    (handleVocabGeneration c9s "w".toList c9p c9v).2[2]? =
      some (Event.calledProvider "m".toList "define w".toList) ∧
    (handleVocabGeneration c9s "w".toList c9p c9v).2.filter
        (fun e => match e with | Event.calledProvider _ _ => true | _ => false) =
      [Event.calledProvider "m".toList "define w".toList] := by decide

end VocabGen
